import Mathlib

/-!
Verification of `nova/scheduler/distributed_scheduler.py` (class
`DistributedScheduler`), shallowly embedded in Lean 4.

Conventions of the embedding:
* Python dict keys that the code reads with `d.get(k, default)` become
  `Option` fields read with `Option.getD`; keys read with unchecked
  indexing `d[k]` become `Option` fields whose absence produces
  `Err.keyError` (Python's `KeyError`).
* Python floats (weights, offsets, scales) are modelled as `Rat`.
* Exceptions are modelled with `Except Err`.
* In-place mutation (host-state consumption, `del` on the request spec)
  is modelled by explicit state passing: functions return the updated
  value.
* External collaborators (crypto/json codec, `novaclient`,
  `db`/storage, `import_class`, `FLAGS` lookups) are parameters.
-/

namespace DistSched

/-- Exceptions raised by the scheduler code. -/
inductive Err where
  | notImplemented
  | noValidHost
  | keyError
  | decodeError
  | notAuthorized
  | costFunctionNotFound
  | weightFlagNotFound
deriving DecidableEq, Repr

/-- A per-host resource snapshot (`host_manager.HostState`): a host name
plus a mutable resource payload of abstract type `S` (the concrete
resource fields live in `host_manager`, outside the scheduler file). -/
structure HostState (S : Type) where
  host : String
  state : S
deriving DecidableEq, Repr

/-- A reference to a host carried by a `WeightedHost`: either a live
`HostState` produced by the local selection loop, or the stub
`HostState(host, 'compute')` built by `_make_weighted_host_from_blob`
(only the destination name, possibly absent, plus the topic). -/
inductive HostRef (S : Type) where
  | live (hs : HostState S)
  | stub (host : Option String) (topic : String)
deriving DecidableEq, Repr

/-- `least_cost.WeightedHost`: a weight plus either a local host
reference or a remote zone id and opaque blob. -/
structure WeightedHost (S : Type) where
  weight : Rat
  host_state : Option (HostRef S) := none
  zone : Option Nat := none
  blob : Option String := none
deriving DecidableEq, Repr

/-- A zone record as returned by `db.zone_get_all`: id plus the
re-weighting parameters, which a malformed record may lack. -/
structure ZoneRec where
  id : Nat
  weight_offset : Option Rat := none
  weight_scale : Option Rat := none
deriving DecidableEq, Repr

/-- One entry of a child zone's `select` response: a dict expected to
hold a raw `weight` and an opaque `blob`, either possibly missing. -/
structure ZoneItem where
  weight : Option Rat := none
  blob : Option String := none
deriving DecidableEq, Repr

/-- The body of the per-item `try` block of `_adjust_child_weights`:
look up `zone_rec['weight_offset']`, `zone_rec['weight_scale']`,
`item['weight']` and `item['blob']`; on any `KeyError` the item is
skipped (`none`), otherwise the cooked `WeightedHost` is produced with
`cooked_weight = offset + scale * raw_weight`. -/
def adjustItem (S : Type) (zone_id : Nat) (zone_rec : ZoneRec) (item : ZoneItem) :
    Option (WeightedHost S) :=
  match zone_rec.weight_offset, zone_rec.weight_scale, item.weight, item.blob with
  | some offset, some scale, some raw_weight, some b =>
      some { weight := offset + scale * raw_weight, zone := some zone_id, blob := some b }
  | _, _, _, _ => none

/-- `DistributedScheduler._adjust_child_weights(child_results, zones)`.
`child_results` is a list of `(zone_id, result)` pairs; a falsy result
(`None` or the empty list) is skipped; for each zone record whose id
matches, every item of the result is cooked by `adjustItem`, items
raising `KeyError` being skipped individually. -/
def adjust_child_weights (S : Type)
    (child_results : List (Nat × Option (List ZoneItem))) (zones : List ZoneRec) :
    List (WeightedHost S) :=
  child_results.flatMap fun p =>
    match p.2 with
    | none => []
    | some items =>
        zones.flatMap fun zone_rec =>
          if zone_rec.id = p.1 then items.filterMap (adjustItem S p.1 zone_rec) else []

/-- Instance properties inside the request spec: the identity
placeholder `uuid` (deleted by `_provision_resource_locally`) plus all
remaining keys, kept abstract as a payload of type `P`. -/
structure InstanceProps (P : Type) where
  uuid : Option String := none
  rest : P
deriving DecidableEq, Repr

/-- The request spec dict, with the keys the scheduler reads.
`instance_properties` is indexed uncheckedly in `_schedule` and
`_provision_resource_locally`; `instance_type` (abstract type `T`),
`num_instances` and `blob` are read with `.get` defaults. -/
structure RequestSpec (P T : Type) where
  instance_properties : Option (InstanceProps P) := none
  instance_type : Option T := none
  num_instances : Option Nat := none
  blob : Option String := none
deriving DecidableEq, Repr

/-- Modelled from the spec: `least_cost.weighted_sum` (file not under
`src/`) computes, for each host, `weight = Σ coefficient ×
cost_function(host)` over the registered cost functions. This is the
per-host total used to pick the best host. -/
def hostWeight (S F : Type) (apply : F → HostState S → Rat)
    (cost_functions : List (Rat × F)) (h : HostState S) : Rat :=
  cost_functions.foldl (fun acc cf => acc + cf.1 * apply cf.2 h) 0

/-- Tail of the first-seen minimum search: current best element, its
index, the index of the next candidate, the remaining candidates. A
later element replaces the best only when strictly smaller. -/
def argminGo (A : Type) (w : A → Rat) (best : A) (bi i : Nat) :
    List A → A × Nat
  | [] => (best, bi)
  | y :: ys =>
      if w y < w best then argminGo A w y i (i + 1) ys
      else argminGo A w best bi (i + 1) ys

/-- Modelled from the spec: `least_cost.weighted_sum` returns the
single `WeightedHost` with minimal weight, ties broken by iteration
order (first-seen wins). We return the winning host together with its
index in the candidate list. -/
def argmin (A : Type) (w : A → Rat) : List A → Option (A × Nat)
  | [] => none
  | x :: xs => some (argminGo A w x 0 1 xs)

/-- One iteration of the selection loop of `_schedule`: filter the
current pool (`host_manager.filter_hosts`, modelled from the spec as
keeping the hosts passing the active filter chain), stop if nothing
survives, otherwise pick the minimal-weight host, emit its
`WeightedHost`, and consume resources on that host in place
(`consume_from_instance`), yielding the pool seen by the next
iteration. -/
def scheduleStep (S : Type) (passes : HostState S → Bool)
    (w : HostState S → Rat) (consume : HostState S → HostState S)
    (pool : List (HostState S)) :
    Option (WeightedHost S × List (HostState S)) :=
  match argmin (HostState S) w (pool.filter passes) with
  | none => none
  | some (sel, i) =>
      some ({ weight := w sel, host_state := some (.live sel) },
            (pool.filter passes).set i (consume sel))

/-- The `for num in xrange(num_instances)` selection loop of
`_schedule`: run `scheduleStep` up to `num_instances` times, breaking
early when filtering leaves no host. -/
def scheduleLoop (S : Type) (passes : HostState S → Bool)
    (w : HostState S → Rat) (consume : HostState S → HostState S) :
    Nat → List (HostState S) → List (WeightedHost S)
  | 0, _ => []
  | n + 1, pool =>
      match scheduleStep S passes w consume pool with
      | none => []
      | some (wh, pool') => wh :: scheduleLoop S passes w consume n pool'

/-- The ordering used by `selected_hosts.sort(key=operator.attrgetter('weight'))`. -/
def weightLE (S : Type) (a b : WeightedHost S) : Prop := a.weight ≤ b.weight

instance (S : Type) : DecidableRel (weightLE S) :=
  fun a b => inferInstanceAs (Decidable (a.weight ≤ b.weight))

instance (S : Type) : IsTotal (WeightedHost S) (weightLE S) :=
  ⟨fun a b => le_total a.weight b.weight⟩

instance (S : Type) : IsTrans (WeightedHost S) (weightLE S) :=
  ⟨fun _ _ _ hab hbc => le_trans hab hbc⟩

/-- `selected_hosts.sort(key=operator.attrgetter('weight'))`: stable
ascending sort by weight (insertion sort, which agrees with Python's
stable ascending sort). -/
def sortByWeight (S : Type) (l : List (WeightedHost S)) : List (WeightedHost S) :=
  List.insertionSort (weightLE S) l

/-- `DistributedScheduler._schedule`. Parameters standing for the
collaborators: `passes` the active filter chain, `apply`/`cost_functions`
the weighing data, `consume` host-state consumption by the requested
instance's properties, `all_host_states` the snapshot from
`host_manager.get_all_host_states`, `local_zone_only` the flag read
from `filter_properties`, and `zones`/`child_results` the zone records
and the per-zone `select` responses from the federation fan-out. -/
def schedule (S F P T : Type) (passes : HostState S → Bool)
    (apply : F → HostState S → Rat) (cost_functions : List (Rat × F))
    (consume : InstanceProps P → HostState S → HostState S)
    (all_host_states : List (HostState S)) (local_zone_only : Bool)
    (child_results : List (Nat × Option (List ZoneItem))) (zones : List ZoneRec)
    (topic : String) (request_spec : RequestSpec P T) :
    Except Err (List (WeightedHost S)) :=
  if topic ≠ "compute" then .error .notImplemented
  else
    match request_spec.instance_properties with
    | none => .error .keyError
    | some instance_properties =>
        match request_spec.instance_type with
        | none => .error .notImplemented
        | some _ =>
            .ok ((sortByWeight S
                (if local_zone_only then
                   scheduleLoop S passes (hostWeight S F apply cost_functions)
                     (consume instance_properties)
                     (request_spec.num_instances.getD 1) all_host_states
                 else
                   scheduleLoop S passes (hostWeight S F apply cost_functions)
                     (consume instance_properties)
                     (request_spec.num_instances.getD 1) all_host_states
                   ++ adjust_child_weights S child_results zones)).take
              (request_spec.num_instances.getD 1))

/-- The hypothesis of the spec's multi-instance guarantee, stated over
the actual iterations of the loop: at every iteration at least `N`
hosts survive filtering (and a host is selected, consuming resources
for the next iteration). -/
def survivesAll (S : Type) (passes : HostState S → Bool)
    (w : HostState S → Rat) (consume : HostState S → HostState S) (N : Nat) :
    Nat → List (HostState S) → Bool
  | 0, _ => true
  | n + 1, pool =>
      N ≤ (pool.filter passes).length &&
        match argmin (HostState S) w (pool.filter passes) with
        | none => false
        | some (sel, i) =>
            survivesAll S passes w consume N n
              ((pool.filter passes).set i (consume sel))

/-- The parsed content of a decrypted build-plan blob (`wh_dict`): the
keys the code reads, each possibly absent. -/
structure WHDict where
  host : Option String := none
  blob : Option String := none
  zone : Option Nat := none
  weight : Option Rat := none
deriving DecidableEq, Repr

/-- `DistributedScheduler._make_weighted_host_from_blob`. The
decryptor (`crypto.decryptor(FLAGS.build_plan_encryption_key)`) and
`json.loads` are external collaborators, modelled together as
`decryptParse`; their failure (`none`) propagates as a hard decode
error. `host`, `blob` and `zone` are read with `.get(..., None)`;
`weight` is read with unchecked indexing `wh_dict['weight']`, so its
absence raises `KeyError`. On success the result carries the stub
`HostState(host, 'compute')`. -/
def make_weighted_host_from_blob (S : Type)
    (decryptParse : String → Option WHDict) (blob : String) :
    Except Err (WeightedHost S) :=
  match decryptParse blob with
  | none => .error .decodeError
  | some wh_dict =>
      let host := wh_dict.host
      let b := wh_dict.blob
      let zone := wh_dict.zone
      match wh_dict.weight with
      | none => .error .keyError
      | some weight =>
          .ok { weight := weight, host_state := some (.stub host "compute"),
                blob := b, zone := zone }

/-- `DistributedScheduler._provision_resource_locally`. The storage
collaborator `create_instance_db_entry` is the parameter `createInst`
(instances have abstract type `I`); `cast_to_compute_host` is
fire-and-forget with no observable effect on the scheduler's state.
After creating the instance the code runs
`del request_spec['instance_properties']['uuid']`, which raises
`KeyError` when either key is absent and otherwise removes the
identity placeholder, leaving every other field untouched. -/
def provision_resource_locally (S P T I : Type)
    (createInst : RequestSpec P T → I) (weighted_host : WeightedHost S)
    (request_spec : RequestSpec P T) :
    Except Err (I × RequestSpec P T) :=
  let inst := createInst request_spec
  match request_spec.instance_properties with
  | none => .error .keyError
  | some props =>
      match props.uuid with
      | none => .error .keyError
      | some _ =>
          .ok (inst, { request_spec with
                        instance_properties := some { props with uuid := none } })

/-- Python truthiness of `weighted_host.zone` in the dispatch test
`if weighted_host.zone:` (`None` and `0` are falsy). -/
def zoneIsTruthy : Option Nat → Bool
  | none => false
  | some n => n != 0

/-- One iteration body of the provisioning loop of
`schedule_run_instance`: a truthy zone delegates to
`_ask_child_zone_to_create_instance` (external collaborator
`provRemote`, returning the created instance or `None`), otherwise the
host is provisioned locally by `provLocal` (which may also update the
request spec). -/
def provisionOne (S P T I : Type)
    (provLocal : WeightedHost S → RequestSpec P T → Except Err (I × RequestSpec P T))
    (provRemote : WeightedHost S → Except Err (Option I))
    (weighted_host : WeightedHost S) (request_spec : RequestSpec P T) :
    Except Err (Option I × RequestSpec P T) :=
  if zoneIsTruthy weighted_host.zone then
    match provRemote weighted_host with
    | .error e => .error e
    | .ok inst => .ok (inst, request_spec)
  else
    match provLocal weighted_host request_spec with
    | .error e => .error e
    | .ok (inst, spec') => .ok (some inst, spec')

/-- The `for num in xrange(num_instances)` loop of
`schedule_run_instance`: pop the next weighted host (breaking silently
when the list is exhausted), provision it, and append the instance to
the result when one was created (`if instance:`). -/
def provisionLoop (S P T I : Type)
    (provLocal : WeightedHost S → RequestSpec P T → Except Err (I × RequestSpec P T))
    (provRemote : WeightedHost S → Except Err (Option I)) :
    Nat → List (WeightedHost S) → RequestSpec P T →
    Except Err (List I × RequestSpec P T)
  | 0, _, request_spec => .ok ([], request_spec)
  | _ + 1, [], request_spec => .ok ([], request_spec)
  | n + 1, wh :: rest, request_spec =>
      match provisionOne S P T I provLocal provRemote wh request_spec with
      | .error e => .error e
      | .ok (inst, spec') =>
          match provisionLoop S P T I provLocal provRemote n rest spec' with
          | .error e => .error e
          | .ok (instances, spec'') =>
              .ok ((match inst with
                    | some i => i :: instances
                    | none => instances), spec'')

/-- `DistributedScheduler.schedule_run_instance`, parameterised over
its direct callees: `makeWH` (`_make_weighted_host_from_blob`) and
`sched` (`_schedule` on topic `"compute"`), besides the provisioning
collaborators. A truthy `blob` in the request spec is decoded into the
single-element build plan; otherwise `_schedule` produces the plan; an
empty plan raises `NoValidHost`; then the provisioning loop runs. -/
def schedule_run_instance_with (S P T I : Type)
    (makeWH : String → Except Err (WeightedHost S))
    (sched : RequestSpec P T → Except Err (List (WeightedHost S)))
    (provLocal : WeightedHost S → RequestSpec P T → Except Err (I × RequestSpec P T))
    (provRemote : WeightedHost S → Except Err (Option I))
    (request_spec : RequestSpec P T) :
    Except Err (List I × RequestSpec P T) :=
  match (match request_spec.blob with
         | some b =>
             if b = "" then sched request_spec
             else
               match makeWH b with
               | .error e => .error e
               | .ok wh => .ok [wh]
         | none => sched request_spec :
         Except Err (List (WeightedHost S))) with
  | .error e => .error e
  | .ok weighted_hosts =>
      if weighted_hosts.isEmpty then .error .noValidHost
      else provisionLoop S P T I provLocal provRemote
             (request_spec.num_instances.getD 1) weighted_hosts request_spec

/-- `DistributedScheduler.schedule_run_instance` with its callees
instantiated to their embeddings from this file. -/
def schedule_run_instance (S F P T I : Type)
    (decryptParse : String → Option WHDict)
    (passes : HostState S → Bool) (apply : F → HostState S → Rat)
    (cost_functions : List (Rat × F))
    (consume : InstanceProps P → HostState S → HostState S)
    (all_host_states : List (HostState S)) (local_zone_only : Bool)
    (child_results : List (Nat × Option (List ZoneItem))) (zones : List ZoneRec)
    (createInst : RequestSpec P T → I)
    (provRemote : WeightedHost S → Except Err (Option I))
    (request_spec : RequestSpec P T) :
    Except Err (List I × RequestSpec P T) :=
  schedule_run_instance_with S P T I
    (make_weighted_host_from_blob S decryptParse)
    (schedule S F P T passes apply cost_functions consume all_host_states
      local_zone_only child_results zones "compute")
    (provision_resource_locally S P T I createInst)
    provRemote request_spec

/-- The module/class qualification applied by `get_cost_functions` to
a short cost-function name: `"%s.%s.%s" % (__name__,
self.__class__.__name__, short_name)`. -/
def qualifiedName (short_name : String) : String :=
  "nova.scheduler.distributed_scheduler.DistributedScheduler." ++ short_name

/-- The resolution loop of `get_cost_functions` over
`FLAGS.least_cost_functions`: split off the short name (last dotted
component, or qualify a bare name); keep only names starting with
`"<topic>_"` or `"noop"`; resolve the callable through the
`import_class` collaborator (`importClass`, failure raising
`SchedulerCostFunctionNotFound`); resolve the weight from the flag
`"<short-name>_weight"` (`flagWeight`, failure raising
`SchedulerWeightFlagNotFound`); collect `(weight, fn)` pairs in
order. -/
def resolveCostFns (F : Type) (importClass : String → Option F)
    (flagWeight : String → Option Rat) (topic : String) :
    List String → Except Err (List (Rat × F))
  | [] => .ok []
  | cost_fn_str :: rest =>
      let p : String × String :=
        if cost_fn_str.contains '.' then
          ((cost_fn_str.splitOn ".").getLastD cost_fn_str, cost_fn_str)
        else (cost_fn_str, qualifiedName cost_fn_str)
      if ¬ (p.1.startsWith (topic ++ "_") || p.1.startsWith "noop") then
        resolveCostFns F importClass flagWeight topic rest
      else
        match importClass p.2 with
        | none => .error .costFunctionNotFound
        | some cost_fn =>
            match flagWeight (p.1 ++ "_weight") with
            | none => .error .weightFlagNotFound
            | some weight =>
                match resolveCostFns F importClass flagWeight topic rest with
                | .error e => .error e
                | .ok cost_fns => .ok ((weight, cost_fn) :: cost_fns)

/-- `DistributedScheduler.get_cost_functions(topic=None)`. The cache
`self.cost_function_cache` is modelled as an association list; the
call returns the resolved list together with the updated cache. A
`None` topic defaults to `"compute"`; a cached topic returns the
cached list unchanged without resolving anything. -/
def get_cost_functions (F : Type) (importClass : String → Option F)
    (flagWeight : String → Option Rat) (least_cost_functions : List String)
    (cache : List (String × List (Rat × F))) (topicArg : Option String) :
    Except Err (List (Rat × F) × List (String × List (Rat × F))) :=
  match cache.lookup (topicArg.getD "compute") with
  | some cost_fns => .ok (cost_fns, cache)
  | none =>
      match resolveCostFns F importClass flagWeight (topicArg.getD "compute")
          least_cost_functions with
      | .error e => .error e
      | .ok cost_fns => .ok (cost_fns, (topicArg.getD "compute", cost_fns) :: cache)

/-! ### Helper lemmas -/

/-- Inversion of `adjustItem`: a produced entry determines present
offset/scale/weight/blob keys and the cooked-weight formula. -/
theorem adjustItem_eq_some {S : Type} {zone_id : Nat} {zr : ZoneRec} {item : ZoneItem}
    {wh : WeightedHost S} (h : adjustItem S zone_id zr item = some wh) :
    ∃ offset scale raw b, zr.weight_offset = some offset ∧
      zr.weight_scale = some scale ∧ item.weight = some raw ∧ item.blob = some b ∧
      wh = { weight := offset + scale * raw, zone := some zone_id, blob := some b } := by
  cases ho : zr.weight_offset <;> cases hs : zr.weight_scale <;>
    cases hw : item.weight <;> cases hb : item.blob <;>
    simp [adjustItem, ho, hs, hw, hb] at h
  exact ⟨_, _, _, _, rfl, rfl, rfl, rfl, h.symm⟩

/-! ### Claims -/

/-- Claim C3: every remote `WeightedHost` merged by
`_adjust_child_weights` comes from a zone record and a result item of
that zone, and its weight is `weight_offset + weight_scale * raw_weight`
for that zone. -/
theorem child_weight_rescaling {S : Type}
    {child_results : List (Nat × Option (List ZoneItem))} {zones : List ZoneRec}
    {wh : WeightedHost S} (h : wh ∈ adjust_child_weights S child_results zones) :
    ∃ zone_rec ∈ zones, ∃ items item offset scale raw,
      (zone_rec.id, some items) ∈ child_results ∧ item ∈ items ∧
      zone_rec.weight_offset = some offset ∧ zone_rec.weight_scale = some scale ∧
      item.weight = some raw ∧ wh.zone = some zone_rec.id ∧
      wh.weight = offset + scale * raw := by
  unfold adjust_child_weights at h
  rw [List.mem_flatMap] at h
  obtain ⟨⟨zid, res⟩, hp, h⟩ := h
  cases res with
  | none => simp at h
  | some items =>
      simp only at h
      rw [List.mem_flatMap] at h
      obtain ⟨zr, hzr, h⟩ := h
      by_cases hid : zr.id = zid
      · rw [if_pos hid] at h
        rw [List.mem_filterMap] at h
        obtain ⟨item, hitem, hadj⟩ := h
        obtain ⟨o, s, r, b, ho, hs, hw, hb, rfl⟩ := adjustItem_eq_some hadj
        exact ⟨zr, hzr, items, item, o, s, r, by rw [hid]; exact hp, hitem,
          ho, hs, hw, by simp [hid], by simp⟩
      · rw [if_neg hid] at h
        simp at h

/-- Claim C3 witness: with `weight_offset = 10`, `weight_scale = 2` and
raw weight `5`, the merged candidate's weight is `20`. -/
theorem child_weight_rescaling_witness :
    (({ weight := 20, zone := some 7, blob := some "x" } : WeightedHost Unit)
        ∈ adjust_child_weights Unit
            [(7, some [{ weight := some 5, blob := some "x" }])]
            [{ id := 7, weight_offset := some 10, weight_scale := some 2 }]) ∧
      ∃ zone_rec ∈ [({ id := 7, weight_offset := some 10, weight_scale := some 2 } : ZoneRec)],
        ∃ items item offset scale raw,
          (zone_rec.id, some items) ∈
              [(7, some [({ weight := some 5, blob := some "x" } : ZoneItem)])] ∧
          item ∈ items ∧
          zone_rec.weight_offset = some offset ∧ zone_rec.weight_scale = some scale ∧
          item.weight = some raw ∧
          ({ weight := 20, zone := some 7, blob := some "x" } : WeightedHost Unit).zone
              = some zone_rec.id ∧
          ({ weight := 20, zone := some 7, blob := some "x" } : WeightedHost Unit).weight
              = offset + scale * raw := by
  have h : (({ weight := 20, zone := some 7, blob := some "x" } : WeightedHost Unit)
      ∈ adjust_child_weights Unit
          [(7, some [{ weight := some 5, blob := some "x" }])]
          [{ id := 7, weight_offset := some 10, weight_scale := some 2 }]) := by
    have he : adjust_child_weights Unit
          [(7, some [{ weight := some 5, blob := some "x" }])]
          [{ id := 7, weight_offset := some 10, weight_scale := some 2 }]
        = [{ weight := 20, zone := some 7, blob := some "x" }] := by
      simp [adjust_child_weights, adjustItem]
      norm_num
    rw [he]
    exact List.mem_singleton.mpr rfl
  exact ⟨h, child_weight_rescaling h⟩

/-- Claim C4: an entry of a well-formed zone (offset, scale, weight and
blob all present) always appears in the output of
`_adjust_child_weights`, whatever malformed zones or items accompany it
in the input; malformed entries are skipped without raising. -/
theorem malformed_zone_isolation {S : Type}
    {child_results : List (Nat × Option (List ZoneItem))} {zones : List ZoneRec}
    {zid : Nat} {items : List ZoneItem} {zr : ZoneRec} {item : ZoneItem}
    {offset scale raw : Rat} {b : String}
    (hcr : (zid, some items) ∈ child_results) (hzr : zr ∈ zones) (hid : zr.id = zid)
    (ho : zr.weight_offset = some offset) (hsc : zr.weight_scale = some scale)
    (hit : item ∈ items) (hw : item.weight = some raw) (hb : item.blob = some b) :
    ({ weight := offset + scale * raw, zone := some zid, blob := some b } : WeightedHost S)
      ∈ adjust_child_weights S child_results zones := by
  unfold adjust_child_weights
  rw [List.mem_flatMap]
  refine ⟨(zid, some items), hcr, ?_⟩
  simp only
  rw [List.mem_flatMap]
  refine ⟨zr, hzr, ?_⟩
  rw [if_pos hid]
  rw [List.mem_filterMap]
  refine ⟨item, hit, ?_⟩
  simp [adjustItem, ho, hsc, hw, hb]

/-- Claim C4 witness: zone 1 lacks `weight_offset`/`weight_scale`, yet
zone 2's entry still appears in the merged list. -/
theorem malformed_zone_isolation_witness :
    ({ weight := 20, zone := some 2, blob := some "g" } : WeightedHost Unit)
      ∈ adjust_child_weights Unit
          [(1, some [{ weight := some 3, blob := some "m" }]),
           (2, some [{ weight := some 5, blob := some "g" }])]
          [{ id := 1 }, { id := 2, weight_offset := some 10, weight_scale := some 2 }] := by
  have h := @malformed_zone_isolation Unit
    [(1, some [{ weight := some 3, blob := some "m" }]),
     (2, some [{ weight := some 5, blob := some "g" }])]
    [{ id := 1 }, { id := 2, weight_offset := some 10, weight_scale := some 2 }]
    2 [{ weight := some 5, blob := some "g" }]
    { id := 2, weight_offset := some 10, weight_scale := some 2 }
    { weight := some 5, blob := some "g" } 10 2 5 "g"
    (by simp) (by simp) rfl rfl rfl (by simp) rfl rfl
  have he : (10 : Rat) + 2 * 5 = 20 := by norm_num
  rw [he] at h
  exact h

/-- Claim C5: `_schedule` raises `NotImplementedError` for every topic
other than `"compute"`, and (for a request spec that has
`instance_properties`) raises `NotImplementedError` when the spec has
no `instance_type`; in both cases no host is selected because the call
errors out before the selection loop. -/
theorem schedule_rejects_unsupported {S F P T : Type}
    (passes : HostState S → Bool) (apply : F → HostState S → Rat)
    (cost_functions : List (Rat × F))
    (consume : InstanceProps P → HostState S → HostState S)
    (all_host_states : List (HostState S)) (local_zone_only : Bool)
    (child_results : List (Nat × Option (List ZoneItem))) (zones : List ZoneRec) :
    (∀ (topic : String) (request_spec : RequestSpec P T), topic ≠ "compute" →
        schedule S F P T passes apply cost_functions consume all_host_states
          local_zone_only child_results zones topic request_spec
          = .error .notImplemented) ∧
    (∀ (request_spec : RequestSpec P T) (props : InstanceProps P),
        request_spec.instance_properties = some props →
        request_spec.instance_type = none →
        schedule S F P T passes apply cost_functions consume all_host_states
          local_zone_only child_results zones "compute" request_spec
          = .error .notImplemented) := by
  constructor
  · intro topic request_spec h
    simp [schedule, h]
  · intro request_spec props hp ht
    simp [schedule, hp, ht]

/-- Claim C5 witness: topic `"network"` and a spec without
`instance_type` both yield `NotImplementedError` on concrete inputs. -/
theorem schedule_rejects_unsupported_witness :
    (("network" : String) ≠ "compute" ∧
      schedule Unit Unit Unit Unit (fun _ => true) (fun _ _ => 0) []
        (fun _ h => h) [] true [] [] "network"
        { instance_properties := some { uuid := some "u", rest := () },
          instance_type := some () }
        = .error .notImplemented) ∧
    (schedule Unit Unit Unit Unit (fun _ => true) (fun _ _ => 0) []
        (fun _ h => h) [] true [] [] "compute"
        ({ instance_properties := some { uuid := some "u", rest := () },
           instance_type := none } : RequestSpec Unit Unit)
        = .error .notImplemented) :=
  ⟨⟨by decide,
    (schedule_rejects_unsupported (fun _ => true) (fun _ _ => 0) []
        (fun _ h => h) [] true [] []).1 "network" _ (by decide)⟩,
    (schedule_rejects_unsupported (fun _ => true) (fun _ _ => 0) []
        (fun _ h => h) [] true [] []).2 _ { uuid := some "u", rest := () } rfl rfl⟩

/-- Claim C7 counterexample: a decrypted dict lacking the `weight` key
DOES reach the unguarded lookup `wh_dict['weight']`, raising `KeyError`
— so the absence of a required key is not always handled via explicit
defaults. Concrete input: a decryptor yielding
`{'host': 'h'}` (no `weight`). -/
theorem blob_missing_weight_raises :
    make_weighted_host_from_blob Unit (fun _ => some { host := some "h" }) "b"
      = .error .keyError := rfl

/-- Claim C7 amended: in `_make_weighted_host_from_blob` the `host`,
`blob` and `zone` keys are read with explicit `.get` defaults, but the
`weight` key is read by unchecked indexing: a decrypted dict without
`weight` raises `KeyError` (propagating to the caller), and when
`weight` is present no key lookup can fail and the `WeightedHost` is
built from the dict's fields. -/
theorem blob_decode_key_handling {S : Type} :
    (∀ (decryptParse : String → Option WHDict) (b : String) (d : WHDict),
        decryptParse b = some d → d.weight = none →
        make_weighted_host_from_blob S decryptParse b = .error .keyError) ∧
    (∀ (decryptParse : String → Option WHDict) (b : String) (d : WHDict) (w : Rat),
        decryptParse b = some d → d.weight = some w →
        make_weighted_host_from_blob S decryptParse b
          = .ok { weight := w, host_state := some (.stub d.host "compute"),
                  zone := d.zone, blob := d.blob }) := by
  constructor
  · intro decryptParse b d hd hw
    simp [make_weighted_host_from_blob, hd, hw]
  · intro decryptParse b d w hd hw
    simp [make_weighted_host_from_blob, hd, hw]

/-- Claim C7 amended witness: concrete decryptors exercising both the
missing-`weight` and the present-`weight` cases. -/
theorem blob_decode_key_handling_witness :
    (make_weighted_host_from_blob Unit (fun _ => some { zone := some 3 }) "b"
        = .error .keyError) ∧
    (make_weighted_host_from_blob Unit
        (fun _ => some { host := some "h", weight := some 3 }) "b"
        = .ok { weight := 3, host_state := some (.stub (some "h") "compute") }) :=
  ⟨(@blob_decode_key_handling Unit).1 (fun _ => some { zone := some 3 }) "b"
      { zone := some 3 } rfl rfl,
   (@blob_decode_key_handling Unit).2 (fun _ => some { host := some "h", weight := some 3 })
      "b" { host := some "h", weight := some 3 } 3 rfl rfl⟩

/-- Claim C8: local provisioning removes the `uuid` identity
placeholder from `instance_properties` and changes nothing else in the
request spec: the remaining instance properties and the
`instance_type`, `num_instances` and `blob` fields are all preserved,
and the created instance is the storage collaborator's result on the
incoming spec. -/
theorem provision_locally_clears_uuid {S P T I : Type}
    (createInst : RequestSpec P T → I) (weighted_host : WeightedHost S)
    (request_spec : RequestSpec P T) (props : InstanceProps P) (u : String)
    (hp : request_spec.instance_properties = some props)
    (hu : props.uuid = some u) :
    ∃ spec', provision_resource_locally S P T I createInst weighted_host request_spec
        = .ok (createInst request_spec, spec') ∧
      spec'.instance_properties = some { uuid := none, rest := props.rest } ∧
      spec'.instance_type = request_spec.instance_type ∧
      spec'.num_instances = request_spec.num_instances ∧
      spec'.blob = request_spec.blob := by
  refine ⟨{ request_spec with
            instance_properties := some { props with uuid := none } }, ?_, ?_, rfl, rfl, rfl⟩
  · simp [provision_resource_locally, hp, hu]
  · rfl

/-- Claim C8 witness: a concrete request spec whose `uuid` placeholder
is removed while every other field survives unchanged. -/
theorem provision_locally_clears_uuid_witness :
    ∃ spec', provision_resource_locally Unit Nat Bool Nat (fun _ => 42)
        ({ weight := 0 } : WeightedHost Unit)
        { instance_properties := some { uuid := some "u", rest := 5 },
          instance_type := some true, num_instances := some 2, blob := some "B" }
        = .ok (42, spec') ∧
      spec'.instance_properties = some { uuid := none, rest := 5 } ∧
      spec'.instance_type
        = ({ instance_properties := some { uuid := some "u", rest := 5 },
             instance_type := some true, num_instances := some 2,
             blob := some "B" } : RequestSpec Nat Bool).instance_type ∧
      spec'.num_instances
        = ({ instance_properties := some { uuid := some "u", rest := 5 },
             instance_type := some true, num_instances := some 2,
             blob := some "B" } : RequestSpec Nat Bool).num_instances ∧
      spec'.blob
        = ({ instance_properties := some { uuid := some "u", rest := 5 },
             instance_type := some true, num_instances := some 2,
             blob := some "B" } : RequestSpec Nat Bool).blob :=
  provision_locally_clears_uuid (fun _ => 42) { weight := 0 } _
    { uuid := some "u", rest := 5 } "u" rfl rfl

/-- Claim C9: once `get_cost_functions` has produced a result for a
topic, calling it again with the resulting cache and the same topic
argument returns the very same list and leaves the cache untouched,
whatever `import_class` resolver, weight-flag table or configured
function list the second call sees — i.e. the second call performs no
re-resolution. -/
theorem get_cost_functions_cached {F : Type}
    (importClass : String → Option F) (flagWeight : String → Option Rat)
    (least_cost_functions : List String)
    (cache : List (String × List (Rat × F))) (topicArg : Option String)
    (cost_fns : List (Rat × F)) (cache' : List (String × List (Rat × F)))
    (h : get_cost_functions F importClass flagWeight least_cost_functions cache topicArg
          = .ok (cost_fns, cache')) :
    ∀ (importClass' : String → Option F) (flagWeight' : String → Option Rat)
      (least_cost_functions' : List String),
      get_cost_functions F importClass' flagWeight' least_cost_functions' cache' topicArg
        = .ok (cost_fns, cache') := by
  intro importClass' flagWeight' least_cost_functions'
  unfold get_cost_functions at h ⊢
  cases hl : (cache.lookup (topicArg.getD "compute")) with
  | some fns =>
      rw [hl] at h
      obtain ⟨h1, h2⟩ := by simpa using h
      subst h1; subst h2
      rw [hl]
  | none =>
      rw [hl] at h
      cases hr : resolveCostFns F importClass flagWeight (topicArg.getD "compute")
          least_cost_functions with
      | error e => rw [hr] at h; simp at h
      | ok fns =>
          rw [hr] at h
          obtain ⟨h1, h2⟩ := by simpa using h
          subst h1
          rw [← h2]
          simp [List.lookup]

/-- Claim C9 witness: a first call on an empty cache populates the
`"compute"` entry; a second call with that cache and degenerate
resolvers returns the identical list and cache. -/
theorem get_cost_functions_cached_witness :
    get_cost_functions Nat (fun _ => none) (fun _ => none) []
        [("compute", [(1, 9)])] none
      = .ok ([(1, 9)], [("compute", [(1, 9)])]) :=
  get_cost_functions_cached (fun _ => some 9) (fun _ => some 1) []
    [("compute", [(1, 9)])] none [(1, 9)] [("compute", [(1, 9)])]
    (by rfl) (fun _ => none) (fun _ => none) []

/-- `_provision_resource_locally` raises only `KeyError`, never
`NoValidHost`. -/
theorem provision_resource_locally_ne_noValidHost {S P T I : Type}
    (createInst : RequestSpec P T → I) (wh : WeightedHost S)
    (request_spec : RequestSpec P T) :
    provision_resource_locally S P T I createInst wh request_spec
      ≠ .error .noValidHost := by
  unfold provision_resource_locally
  cases hp : request_spec.instance_properties with
  | none => simp
  | some props => cases hu : props.uuid <;> simp [hu]

/-- `provisionOne` never raises `NoValidHost` when neither provisioning
collaborator does. -/
theorem provisionOne_ne_noValidHost {S P T I : Type}
    {provLocal : WeightedHost S → RequestSpec P T → Except Err (I × RequestSpec P T)}
    {provRemote : WeightedHost S → Except Err (Option I)}
    (hl : ∀ wh spec, provLocal wh spec ≠ .error .noValidHost)
    (hr : ∀ wh, provRemote wh ≠ .error .noValidHost)
    (wh : WeightedHost S) (spec : RequestSpec P T) :
    provisionOne S P T I provLocal provRemote wh spec ≠ .error .noValidHost := by
  unfold provisionOne
  by_cases hz : zoneIsTruthy wh.zone
  · rw [if_pos hz]
    cases hres : provRemote wh with
    | error e =>
        intro hc
        simp at hc
        exact hr wh (by rw [hres, hc])
    | ok i => simp
  · rw [if_neg hz]
    cases hres : provLocal wh spec with
    | error e =>
        intro hc
        simp at hc
        exact hl wh spec (by rw [hres, hc])
    | ok p => simp

/-- The provisioning loop never raises `NoValidHost` when neither
provisioning collaborator does: exhausting the weighted-host list is a
silent break, not an error. -/
theorem provisionLoop_ne_noValidHost {S P T I : Type}
    {provLocal : WeightedHost S → RequestSpec P T → Except Err (I × RequestSpec P T)}
    {provRemote : WeightedHost S → Except Err (Option I)}
    (hl : ∀ wh spec, provLocal wh spec ≠ .error .noValidHost)
    (hr : ∀ wh, provRemote wh ≠ .error .noValidHost) :
    ∀ (n : Nat) (whs : List (WeightedHost S)) (spec : RequestSpec P T),
      provisionLoop S P T I provLocal provRemote n whs spec
        ≠ .error .noValidHost := by
  intro n
  induction n with
  | zero => intro whs spec; simp [provisionLoop]
  | succ n ih =>
      intro whs spec
      cases whs with
      | nil => simp [provisionLoop]
      | cons wh rest =>
          unfold provisionLoop
          cases hone : provisionOne S P T I provLocal provRemote wh spec with
          | error e =>
              intro hc
              simp at hc
              exact provisionOne_ne_noValidHost hl hr wh spec (by rw [hone, hc])
          | ok p =>
              obtain ⟨inst, spec'⟩ := p
              cases hloop : provisionLoop S P T I provLocal provRemote n rest spec' with
              | error e =>
                  intro hc
                  simp [hloop] at hc
                  exact ih rest spec' (by rw [hloop, hc])
              | ok q =>
                  obtain ⟨instances, spec''⟩ := q
                  simp [hloop]

/-- Running the provisioning loop on an exhausted list is a silent
no-op for any remaining iteration count. -/
theorem provisionLoop_nil {S P T I : Type}
    (provLocal : WeightedHost S → RequestSpec P T → Except Err (I × RequestSpec P T))
    (provRemote : WeightedHost S → Except Err (Option I))
    (n : Nat) (spec : RequestSpec P T) :
    provisionLoop S P T I provLocal provRemote n [] spec = .ok ([], spec) := by
  cases n <;> rfl

/-- Claim C6: `schedule_run_instance` (1) on a truthy `blob` decodes it
into exactly one `WeightedHost` and its result does not depend on
`_schedule` at all (for every `sched` it equals provisioning the
singleton plan) and cannot be `NoValidHost`; (2) with no `blob` it uses
`_schedule`'s plan, raising `NoValidHost` exactly when that plan is
empty. Local provisioning is the embedded
`_provision_resource_locally`; the remote collaborator is assumed never
to raise `NoValidHost` (it raises `NotAuthorized`/client errors). -/
theorem run_instance_blob_and_noValidHost {S P T I : Type}
    (makeWH : String → Except Err (WeightedHost S))
    (createInst : RequestSpec P T → I)
    (provRemote : WeightedHost S → Except Err (Option I))
    (hr : ∀ wh, provRemote wh ≠ .error .noValidHost)
    (request_spec : RequestSpec P T) :
    (∀ (b : String) (wh : WeightedHost S)
        (sched : RequestSpec P T → Except Err (List (WeightedHost S))),
        request_spec.blob = some b → b ≠ "" → makeWH b = .ok wh →
        schedule_run_instance_with S P T I makeWH sched
            (provision_resource_locally S P T I createInst) provRemote request_spec
          = provisionLoop S P T I (provision_resource_locally S P T I createInst)
              provRemote (request_spec.num_instances.getD 1) [wh] request_spec ∧
        schedule_run_instance_with S P T I makeWH sched
            (provision_resource_locally S P T I createInst) provRemote request_spec
          ≠ .error .noValidHost) ∧
    (∀ (sched : RequestSpec P T → Except Err (List (WeightedHost S)))
        (weighted_hosts : List (WeightedHost S)),
        request_spec.blob = none → sched request_spec = .ok weighted_hosts →
        schedule_run_instance_with S P T I makeWH sched
            (provision_resource_locally S P T I createInst) provRemote request_spec
          = (if weighted_hosts.isEmpty then .error .noValidHost
             else provisionLoop S P T I (provision_resource_locally S P T I createInst)
                    provRemote (request_spec.num_instances.getD 1) weighted_hosts
                    request_spec) ∧
        (schedule_run_instance_with S P T I makeWH sched
            (provision_resource_locally S P T I createInst) provRemote request_spec
          = .error .noValidHost ↔ weighted_hosts = [])) := by
  constructor
  · intro b wh sched hb hbne hwh
    have heq : schedule_run_instance_with S P T I makeWH sched
        (provision_resource_locally S P T I createInst) provRemote request_spec
        = provisionLoop S P T I (provision_resource_locally S P T I createInst)
            provRemote (request_spec.num_instances.getD 1) [wh] request_spec := by
      unfold schedule_run_instance_with
      rw [hb]
      simp [hwh, hbne]
    refine ⟨heq, ?_⟩
    rw [heq]
    exact provisionLoop_ne_noValidHost
      (provision_resource_locally_ne_noValidHost createInst) hr _ _ _
  · intro sched weighted_hosts hb hsched
    have heq : schedule_run_instance_with S P T I makeWH sched
        (provision_resource_locally S P T I createInst) provRemote request_spec
        = (if weighted_hosts.isEmpty then .error .noValidHost
           else provisionLoop S P T I (provision_resource_locally S P T I createInst)
                  provRemote (request_spec.num_instances.getD 1) weighted_hosts
                  request_spec) := by
      unfold schedule_run_instance_with
      rw [hb, hsched]
    refine ⟨heq, ?_⟩
    rw [heq]
    cases weighted_hosts with
    | nil => simp
    | cons wh rest =>
        simp only [List.isEmpty_cons, if_neg Bool.false_ne_true]
        constructor
        · intro hc
          exact absurd hc (provisionLoop_ne_noValidHost
            (provision_resource_locally_ne_noValidHost createInst) hr _ _ _)
        · intro hc
          exact absurd hc (List.cons_ne_nil wh rest)

/-- Claim C6 witness: a concrete blob-carrying spec bypasses a
poisoned `sched` and provisions the single decoded host; a concrete
blob-free spec with an empty plan raises `NoValidHost`. -/
theorem run_instance_blob_and_noValidHost_witness :
    (schedule_run_instance_with Unit Unit Unit Nat
        (fun _ => .ok { weight := 3, host_state := some (.stub (some "h") "compute") })
        (fun _ => .error .keyError)
        (provision_resource_locally Unit Unit Unit Nat (fun _ => 42))
        (fun _ => .ok none)
        { instance_properties := some { uuid := some "u", rest := () },
          instance_type := some (), num_instances := some 1, blob := some "B" }
      = provisionLoop Unit Unit Unit Nat
          (provision_resource_locally Unit Unit Unit Nat (fun _ => 42))
          (fun _ => .ok none) 1
          [{ weight := 3, host_state := some (.stub (some "h") "compute") }]
          { instance_properties := some { uuid := some "u", rest := () },
            instance_type := some (), num_instances := some 1, blob := some "B" }) ∧
    (schedule_run_instance_with Unit Unit Unit Nat
        (fun _ => .ok { weight := 3, host_state := some (.stub (some "h") "compute") })
        (fun _ => .ok [])
        (provision_resource_locally Unit Unit Unit Nat (fun _ => 42))
        (fun _ => .ok none)
        ({ instance_properties := some { uuid := some "u", rest := () },
           instance_type := some (), num_instances := some 1 } : RequestSpec Unit Unit)
      = .error .noValidHost ↔ ([] : List (WeightedHost Unit)) = []) :=
  ⟨((run_instance_blob_and_noValidHost
      (fun _ => .ok { weight := 3, host_state := some (.stub (some "h") "compute") })
      (fun _ => 42) (fun _ => .ok none) (fun _ => by simp) _).1
      "B" { weight := 3, host_state := some (.stub (some "h") "compute") }
      (fun _ => .error .keyError) rfl (by decide) rfl).1,
   ((run_instance_blob_and_noValidHost
      (fun _ => .ok { weight := 3, host_state := some (.stub (some "h") "compute") })
      (fun _ => 42) (fun _ => .ok none) (fun _ => by simp) _).2
      (fun _ => .ok []) [] rfl rfl).2⟩

/-- Claim C10: with a truthy `blob` and `num_instances > 1`, the build
plan is the single decoded `WeightedHost`, so `schedule_run_instance`
provisions at most one instance: its result is exactly the outcome of
provisioning that one host (the remaining iterations hit the exhausted
list and break silently, with no error for the shortfall), and any
successful result carries at most one instance. -/
theorem run_instance_blob_shortfall {S P T I : Type}
    (makeWH : String → Except Err (WeightedHost S))
    (sched : RequestSpec P T → Except Err (List (WeightedHost S)))
    (provLocal : WeightedHost S → RequestSpec P T → Except Err (I × RequestSpec P T))
    (provRemote : WeightedHost S → Except Err (Option I))
    (request_spec : RequestSpec P T) (b : String) (wh : WeightedHost S)
    (hblob : request_spec.blob = some b) (hbne : b ≠ "")
    (hwh : makeWH b = .ok wh)
    (hn : 1 < request_spec.num_instances.getD 1) :
    (schedule_run_instance_with S P T I makeWH sched provLocal provRemote request_spec
      = (match provisionOne S P T I provLocal provRemote wh request_spec with
         | .error e => .error e
         | .ok (inst, spec') => .ok (inst.toList, spec'))) ∧
    (∀ (instances : List I) (spec' : RequestSpec P T),
        schedule_run_instance_with S P T I makeWH sched provLocal provRemote
            request_spec = .ok (instances, spec') →
        instances.length ≤ 1) := by
  obtain ⟨k, hk⟩ := Nat.exists_eq_add_of_le hn
  have hplan : schedule_run_instance_with S P T I makeWH sched provLocal provRemote
      request_spec
      = provisionLoop S P T I provLocal provRemote
          (request_spec.num_instances.getD 1) [wh] request_spec := by
    unfold schedule_run_instance_with
    rw [hblob]
    simp [hwh, hbne]
  have hloop : provisionLoop S P T I provLocal provRemote
      (request_spec.num_instances.getD 1) [wh] request_spec
      = (match provisionOne S P T I provLocal provRemote wh request_spec with
         | .error e => .error e
         | .ok (inst, spec') => .ok (inst.toList, spec')) := by
    rw [hk, Nat.add_comm]
    cases hone : provisionOne S P T I provLocal provRemote wh request_spec with
    | error e => simp [provisionLoop, hone]
    | ok p =>
        obtain ⟨inst, spec'⟩ := p
        cases inst <;> simp [provisionLoop, hone, provisionLoop_nil, Option.toList]
  constructor
  · rw [hplan, hloop]
  · intro instances spec' h
    rw [hplan, hloop] at h
    cases hone : provisionOne S P T I provLocal provRemote wh request_spec with
    | error e => rw [hone] at h; simp at h
    | ok p =>
        obtain ⟨inst, spec''⟩ := p
        rw [hone] at h
        simp only [Except.ok.injEq, Prod.mk.injEq] at h
        obtain ⟨h1, _⟩ := h
        rw [← h1]
        cases inst <;> simp [Option.toList]

/-- Claim C10 witness: a blob-carrying spec asking for 3 instances
yields a single locally provisioned instance and no error. -/
theorem run_instance_blob_shortfall_witness :
    (schedule_run_instance_with Unit Unit Unit Nat
        (fun _ => .ok { weight := 3, host_state := some (.stub (some "h") "compute") })
        (fun _ => .ok [])
        (provision_resource_locally Unit Unit Unit Nat (fun _ => 42))
        (fun _ => .ok none)
        { instance_properties := some { uuid := some "u", rest := () },
          instance_type := some (), num_instances := some 3, blob := some "B" }
      = (match provisionOne Unit Unit Unit Nat
              (provision_resource_locally Unit Unit Unit Nat (fun _ => 42))
              (fun _ => .ok none)
              { weight := 3, host_state := some (.stub (some "h") "compute") }
              { instance_properties := some { uuid := some "u", rest := () },
                instance_type := some (), num_instances := some 3, blob := some "B" } with
         | .error e => .error e
         | .ok (inst, spec') => .ok (inst.toList, spec'))) ∧
    (∀ (instances : List Nat) (spec' : RequestSpec Unit Unit),
        schedule_run_instance_with Unit Unit Unit Nat
            (fun _ => .ok { weight := 3, host_state := some (.stub (some "h") "compute") })
            (fun _ => .ok [])
            (provision_resource_locally Unit Unit Unit Nat (fun _ => 42))
            (fun _ => .ok none)
            { instance_properties := some { uuid := some "u", rest := () },
              instance_type := some (), num_instances := some 3, blob := some "B" }
          = .ok (instances, spec') →
        instances.length ≤ 1) :=
  run_instance_blob_shortfall
    (fun _ => .ok { weight := 3, host_state := some (.stub (some "h") "compute") })
    (fun _ => .ok [])
    (provision_resource_locally Unit Unit Unit Nat (fun _ => 42))
    (fun _ => .ok none) _ "B"
    { weight := 3, host_state := some (.stub (some "h") "compute") }
    rfl (by decide) rfl (by decide)

/-- The first-seen minimum search returns either the incoming best
candidate with its incoming index, or an element of the remaining list
with its absolute index. -/
theorem argminGo_index {A : Type} (w : A → Rat) :
    ∀ (l : List A) (best : A) (bi i : Nat) (sel : A) (j : Nat),
      argminGo A w best bi i l = (sel, j) →
      (sel = best ∧ j = bi) ∨ ∃ k, k < l.length ∧ j = i + k ∧ l[k]? = some sel := by
  intro l
  induction l with
  | nil =>
      intro best bi i sel j h
      simp [argminGo] at h
      exact Or.inl ⟨h.1.symm, h.2.symm⟩
  | cons y ys ih =>
      intro best bi i sel j h
      unfold argminGo at h
      by_cases hlt : w y < w best
      · rw [if_pos hlt] at h
        rcases ih y i (i + 1) sel j h with ⟨hsel, hj⟩ | ⟨k, hk, hj, hget⟩
        · exact Or.inr ⟨0, by simp, by omega, by simp [hsel]⟩
        · exact Or.inr ⟨k + 1, by simp; omega, by omega, by simpa using hget⟩
      · rw [if_neg hlt] at h
        rcases ih best bi (i + 1) sel j h with ⟨hsel, hj⟩ | ⟨k, hk, hj, hget⟩
        · exact Or.inl ⟨hsel, hj⟩
        · exact Or.inr ⟨k + 1, by simp; omega, by omega, by simpa using hget⟩

/-- The winner of `argmin` sits in the list at the returned index. -/
theorem argmin_index {A : Type} (w : A → Rat) (l : List A) (sel : A) (i : Nat)
    (h : argmin A w l = some (sel, i)) : i < l.length ∧ l[i]? = some sel := by
  cases l with
  | nil => simp [argmin] at h
  | cons x xs =>
      simp only [argmin, Option.some.injEq] at h
      have h' : argminGo A w x 0 1 xs = (sel, i) := h
      rcases argminGo_index w xs x 0 1 sel i h' with ⟨hsel, hi⟩ | ⟨k, hk, hi, hget⟩
      · subst hsel; subst hi; simp
      · subst hi
        refine ⟨by simpa using by omega, ?_⟩
        rw [Nat.add_comm 1 k]
        simpa using hget

/-- Claim C2: when iteration `k` of the selection loop picks a host,
the pool handed to iteration `k+1` is iteration `k`'s filtered pool
with `consume_from_instance` applied to the selected host's state (its
slot holds the consumed state, all other slots are untouched), and the
loop indeed continues on exactly that consumed pool — never on the
unconsumed snapshot. -/
theorem consumption_invariant {S : Type} (passes : HostState S → Bool)
    (w : HostState S → Rat) (consume : HostState S → HostState S)
    (pool pool' : List (HostState S)) (wh : WeightedHost S)
    (h : scheduleStep S passes w consume pool = some (wh, pool')) :
    ∃ sel i, argmin (HostState S) w (pool.filter passes) = some (sel, i) ∧
      wh = { weight := w sel, host_state := some (.live sel) } ∧
      pool' = (pool.filter passes).set i (consume sel) ∧
      pool'[i]? = some (consume sel) ∧
      (∀ j, j ≠ i → pool'[j]? = (pool.filter passes)[j]?) ∧
      (∀ n, scheduleLoop S passes w consume (n + 1) pool
        = wh :: scheduleLoop S passes w consume n pool') := by
  have hx : ∃ sel i, argmin (HostState S) w (pool.filter passes) = some (sel, i) := by
    revert h
    unfold scheduleStep
    cases harg : argmin (HostState S) w (pool.filter passes) with
    | none => intro h; simp at h
    | some p =>
        intro _
        obtain ⟨a, b⟩ := p
        exact ⟨a, b, rfl⟩
  obtain ⟨sel, i, harg⟩ := hx
  have h' := h
  unfold scheduleStep at h'
  rw [harg] at h'
  simp only [Option.some.injEq, Prod.mk.injEq] at h'
  obtain ⟨hwh, hpool⟩ := h'
  obtain ⟨hlen, _⟩ := argmin_index w (pool.filter passes) sel i harg
  refine ⟨sel, i, harg, hwh.symm, hpool.symm, ?_, ?_, ?_⟩
  · rw [← hpool]
    exact List.getElem?_set_eq_of_lt (consume sel) hlen
  · intro j hj
    rw [← hpool]
    exact List.getElem?_set_ne hj.symm
  · intro n
    simp only [scheduleLoop]
    rw [h]

/-- Claim C2 witness: a two-host pool where the step selects the first
host; the next pool holds the consumed state in that host's slot. -/
theorem consumption_invariant_witness :
    (scheduleStep Nat (fun _ => true) (fun h => (h.state : Rat)) (fun h => { h with state := h.state + 7 })
        [{ host := "a", state := 1 }, { host := "b", state := 2 }]
      = some ({ weight := 1, host_state := some (.live { host := "a", state := 1 }) },
              [{ host := "a", state := 8 }, { host := "b", state := 2 }])) ∧
    ∃ sel i, argmin (HostState Nat) (fun h => (h.state : Rat))
        ([{ host := "a", state := 1 }, { host := "b", state := 2 }].filter (fun _ => true))
        = some (sel, i) ∧
      ({ weight := 1, host_state := some (.live { host := "a", state := 1 }) } : WeightedHost Nat)
        = { weight := (sel.state : Rat), host_state := some (.live sel) } ∧
      [{ host := "a", state := 8 }, { host := "b", state := 2 }]
        = ([{ host := "a", state := 1 }, { host := "b", state := 2 }].filter
            (fun _ => true)).set i { sel with state := sel.state + 7 } ∧
      ([({ host := "a", state := 8 } : HostState Nat), { host := "b", state := 2 }])[i]?
        = some { sel with state := sel.state + 7 } ∧
      (∀ j, j ≠ i →
        ([({ host := "a", state := 8 } : HostState Nat), { host := "b", state := 2 }])[j]?
          = ([{ host := "a", state := 1 }, { host := "b", state := 2 }].filter
              (fun _ => true))[j]?) ∧
      (∀ n, scheduleLoop Nat (fun _ => true) (fun h => (h.state : Rat))
          (fun h => { h with state := h.state + 7 }) (n + 1)
          [{ host := "a", state := 1 }, { host := "b", state := 2 }]
        = { weight := 1, host_state := some (.live { host := "a", state := 1 }) }
            :: scheduleLoop Nat (fun _ => true) (fun h => (h.state : Rat))
                (fun h => { h with state := h.state + 7 }) n
                [{ host := "a", state := 8 }, { host := "b", state := 2 }]) :=
  ⟨by decide,
   @consumption_invariant Nat (fun _ => true) (fun h => (h.state : Rat))
     (fun h => { h with state := h.state + 7 })
     [{ host := "a", state := 1 }, { host := "b", state := 2 }]
     [{ host := "a", state := 8 }, { host := "b", state := 2 }]
     { weight := 1, host_state := some (.live { host := "a", state := 1 }) }
     (by decide)⟩

/-- When at least `N ≥ 1` hosts survive filtering at every iteration,
the selection loop makes exactly one pick per iteration. -/
theorem scheduleLoop_length {S : Type} (passes : HostState S → Bool)
    (w : HostState S → Rat) (consume : HostState S → HostState S)
    (N : Nat) (hN : 1 ≤ N) :
    ∀ (n : Nat) (pool : List (HostState S)),
      survivesAll S passes w consume N n pool = true →
      (scheduleLoop S passes w consume n pool).length = n := by
  intro n
  induction n with
  | zero => intro pool _; rfl
  | succ n ih =>
      intro pool h
      unfold survivesAll at h
      rw [Bool.and_eq_true] at h
      obtain ⟨_, hrest⟩ := h
      cases harg : argmin (HostState S) w (pool.filter passes) with
      | none => rw [harg] at hrest; simp at hrest
      | some p =>
          obtain ⟨sel, i⟩ := p
          rw [harg] at hrest
          simp only [scheduleLoop, scheduleStep, harg, List.length_cons]
          rw [ih _ hrest]

/-- Claim C1 counterexample: with two hosts `"a"`, `"b"`, an
all-passing filter, an empty cost-function list (all weights `0`) and
consumption that changes nothing, at least `2` hosts survive filtering
at every one of the `2` iterations, yet `_schedule` returns host `"a"`
twice — the returned `WeightedHost`s do not reference distinct
hosts. -/
theorem schedule_duplicate_host_counterexample :
    survivesAll Unit (fun _ => true) (hostWeight Unit Unit (fun _ _ => 0) [])
        (fun h => h) 2 2 [{ host := "a", state := () }, { host := "b", state := () }]
      = true ∧
    schedule Unit Unit Unit Unit (fun _ => true) (fun _ _ => 0) [] (fun _ h => h)
        [{ host := "a", state := () }, { host := "b", state := () }] true [] [] "compute"
        { instance_properties := some { uuid := some "u", rest := () },
          instance_type := some (), num_instances := some 2 }
      = .ok [{ weight := 0, host_state := some (.live { host := "a", state := () }) },
             { weight := 0, host_state := some (.live { host := "a", state := () }) }] ∧
    ¬ ([({ weight := 0,
           host_state := some (.live ({ host := "a", state := () } : HostState Unit)) }
             : WeightedHost Unit),
        { weight := 0, host_state := some (.live { host := "a", state := () }) }].Pairwise
          fun a b => a.host_state ≠ b.host_state) :=
  ⟨by decide, by rfl, by decide⟩

/-- Claim C1 amended: for a `"compute"` request spec with
`instance_properties`, an `instance_type` and `num_instances = N ≥ 1`,
if at least `N` hosts survive filtering at every iteration then
`_schedule` returns exactly `N` `WeightedHost`s — the merged
local+remote candidate list sorted ascending by weight and truncated
to `num_instances` entries — but the entries need not reference
distinct hosts (the same host may be selected in several iterations
when it remains the cheapest survivor). -/
theorem schedule_count_and_order {S F P T : Type} (passes : HostState S → Bool)
    (apply : F → HostState S → Rat) (cost_functions : List (Rat × F))
    (consume : InstanceProps P → HostState S → HostState S)
    (all_host_states : List (HostState S)) (local_zone_only : Bool)
    (child_results : List (Nat × Option (List ZoneItem))) (zones : List ZoneRec)
    (request_spec : RequestSpec P T) (props : InstanceProps P) (ty : T) (N : Nat)
    (hprops : request_spec.instance_properties = some props)
    (hty : request_spec.instance_type = some ty)
    (hN : request_spec.num_instances.getD 1 = N) (hN1 : 1 ≤ N)
    (hsur : survivesAll S passes (hostWeight S F apply cost_functions)
        (consume props) N N all_host_states = true) :
    ∃ l, schedule S F P T passes apply cost_functions consume all_host_states
        local_zone_only child_results zones "compute" request_spec = .ok l ∧
      l.length = N ∧ List.Sorted (weightLE S) l := by
  have hloop : (scheduleLoop S passes (hostWeight S F apply cost_functions)
      (consume props) N all_host_states).length = N :=
    scheduleLoop_length passes (hostWeight S F apply cost_functions)
      (consume props) N hN1 N all_host_states hsur
  have hsorted : ∀ m : List (WeightedHost S),
      List.Sorted (weightLE S) ((sortByWeight S m).take N) := fun m =>
    (List.sorted_insertionSort (weightLE S) m).sublist (List.take_sublist N _)
  have hlen : ∀ m : List (WeightedHost S), N ≤ m.length →
      ((sortByWeight S m).take N).length = N := by
    intro m hm
    rw [List.length_take, sortByWeight, List.length_insertionSort]
    exact Nat.min_eq_left hm
  cases hlzo : local_zone_only
  · refine ⟨(sortByWeight S
        (scheduleLoop S passes (hostWeight S F apply cost_functions)
          (consume props) N all_host_states
         ++ adjust_child_weights S child_results zones)).take N, ?_, ?_, hsorted _⟩
    · simp [schedule, hprops, hty, hN]
    · exact hlen _ (by rw [List.length_append, hloop]; omega)
  · refine ⟨(sortByWeight S
        (scheduleLoop S passes (hostWeight S F apply cost_functions)
          (consume props) N all_host_states)).take N, ?_, ?_, hsorted _⟩
    · simp [schedule, hprops, hty, hN]
    · exact hlen _ (by rw [hloop])

/-- Claim C1 amended witness: two hosts, two instances requested, no
child zones: exactly 2 results, sorted ascending by weight. -/
theorem schedule_count_and_order_witness :
    ∃ l, schedule Unit Unit Unit Unit (fun _ => true) (fun _ _ => 0) []
        (fun _ h => h)
        [{ host := "a", state := () }, { host := "b", state := () }] false [] [] "compute"
        { instance_properties := some { uuid := some "u", rest := () },
          instance_type := some (), num_instances := some 2 }
        = .ok l ∧
      l.length = 2 ∧ List.Sorted (weightLE Unit) l :=
  @schedule_count_and_order Unit Unit Unit Unit (fun _ => true)
    (fun _ _ => 0) [] (fun _ h => h)
    [{ host := "a", state := () }, { host := "b", state := () }] false [] []
    { instance_properties := some { uuid := some "u", rest := () },
      instance_type := some (), num_instances := some 2 }
    { uuid := some "u", rest := () } () 2 rfl rfl rfl (by decide) (by decide)

end DistSched
